import Mathlib

/-!
Shallow embedding of `src/analyze_passwords.py`.

An input file is modelled as the list of its lines (what `f.readlines()`
returns, line terminators included or not: `str.strip()` removes them).
The latin-1 decoding is total, so arbitrary byte content simply becomes an
arbitrary string.  The external zxcvbn scorer is a parameter
`score : String → Int` (`result['score']`).  Exceptions are modelled by
`Except` / `Option`; exact rational arithmetic models Python's
`statistics` module, which computes exactly on integer data.  Plot calls
(`seaborn`, `matplotlib`) only consume already-computed values and are
omitted.  Unicode-only behaviour (`str.strip` / `isdigit` / `isupper` on
non-ASCII classes) is modelled on the ASCII range.
-/

/-- The whitespace characters removed by Python's `str.strip()` (ASCII range). -/
def pyIsSpace (c : Char) : Bool :=
  c = ' ' || c = '\t' || c = '\n' || c = '\x0b' || c = '\x0c' || c = '\r'

/-- Python `str.strip()`: drop leading and trailing whitespace (`password.strip()`,
lines 20, 62 and 77 of the source). -/
def pyStrip (s : String) : String :=
  ⟨((s.data.dropWhile pyIsSpace).reverse.dropWhile pyIsSpace).reverse⟩

/-- The fixed special-character set of line 81: `"!@#$%^&*()"`. -/
def specialChars : List Char := "!@#$%^&*()".data

/-- `any(c.isdigit() for c in p)` (line 79). -/
def hasDigit (p : String) : Bool := p.data.any Char.isDigit

/-- `any(c.isupper() for c in p)` (line 80). -/
def hasUpper (p : String) : Bool := p.data.any Char.isUpper

/-- `any(c in "!@#$%^&*()" for c in p)` (line 81). -/
def hasSpecial (p : String) : Bool := p.data.any fun c => specialChars.contains c

/-- Output of `calculate_unique_passwords` (lines 64-65). -/
structure UniquenessResult where
  unique_count : Nat
  duplicate_count : Nat
deriving DecidableEq

/-- `calculate_unique_passwords` (lines 55-65): strip every line, count distinct
values with `len(set(...))`, and subtract from the total length.  Empty strings
are kept in the list.  (The pie-chart call consumes these two numbers only.) -/
def calculate_unique_passwords (lines : List String) : UniquenessResult :=
  let passwords := lines.map pyStrip
  { unique_count := passwords.toFinset.card
    duplicate_count := passwords.length - passwords.toFinset.card }

/-- Output of `calculate_password_characteristics` (lines 79-81). -/
structure CharClassCounts where
  digit_count : Nat
  upper_count : Nat
  special_count : Nat
deriving DecidableEq

/-- `calculate_password_characteristics` (lines 70-81): strip every line and count
how many stripped lines contain a digit / an uppercase letter / a special
character.  Empty strings are kept in the list (they satisfy no predicate). -/
def calculate_password_characteristics (lines : List String) : CharClassCounts :=
  let passwords := lines.map pyStrip
  { digit_count := passwords.countP hasDigit
    upper_count := passwords.countP hasUpper
    special_count := passwords.countP hasSpecial }

/-- The dict `score_counts = {0: 0, 1: 0, 2: 0, 3: 0, 4: 0}` (line 18), one field
per key. -/
structure ScoreCounts where
  s0 : Nat
  s1 : Nat
  s2 : Nat
  s3 : Nat
  s4 : Nat
deriving DecidableEq

/-- The initial dict of line 18: every bucket present with default 0. -/
def initCounts : ScoreCounts := ⟨0, 0, 0, 0, 0⟩

/-- `score_counts[s] += 1` (line 24).  The dict has exactly the keys 0..4, so any
other key raises `KeyError`, modelled by `none`. -/
def incrScore (c : ScoreCounts) (s : Int) : Option ScoreCounts :=
  if s = 0 then some { c with s0 := c.s0 + 1 }
  else if s = 1 then some { c with s1 := c.s1 + 1 }
  else if s = 2 then some { c with s2 := c.s2 + 1 }
  else if s = 3 then some { c with s3 := c.s3 + 1 }
  else if s = 4 then some { c with s4 := c.s4 + 1 }
  else none

/-- The exceptions the analysis code can raise: `KeyError` from the
`score_counts` dict, and `statistics.StatisticsError` carrying its message. -/
inductive PyError where
  | keyError (k : Int)
  | statisticsError (msg : String)
deriving DecidableEq

/-- The scoring loop of lines 17-24: strip each line, skip it if empty, otherwise
score it, append the score to `scores` and bump its bucket.  A `KeyError` from
the bucket update aborts the whole computation, as an uncaught exception does. -/
def scoreLoop (score : String → Int) :
    List String → ScoreCounts → Except PyError (List Int × ScoreCounts)
  | [], c => .ok ([], c)
  | p :: ps, c =>
    let password := pyStrip p
    if password = "" then
      scoreLoop score ps c
    else
      match incrScore c (score password) with
      | some c' => (scoreLoop score ps c').map fun r => (score password :: r.1, r.2)
      | none => .error (.keyError (score password))

/-- `statistics.mean` (line 26): exact arithmetic mean, `StatisticsError` on an
empty sequence. -/
def pyMean (xs : List Int) : Except PyError ℚ :=
  if xs.length = 0 then .error (.statisticsError "mean requires at least one data point")
  else .ok ((xs.sum : ℚ) / (xs.length : ℚ))

/-- `statistics.variance` (line 27): sample variance with denominator n−1,
`StatisticsError` on fewer than two data points. -/
def pyVariance (xs : List Int) : Except PyError ℚ :=
  if xs.length < 2 then .error (.statisticsError "variance requires at least two data points")
  else
    .ok ((xs.map fun x : Int => ((x : ℚ) - (xs.sum : ℚ) / (xs.length : ℚ)) ^ 2).sum
          / ((xs.length : ℚ) - 1))

/-- `statistics.median` (line 28): middle element of the sorted sequence, or the
average of the two middle elements for an even count; `StatisticsError` on an
empty sequence. -/
def pyMedian (xs : List Int) : Except PyError ℚ :=
  if xs.length = 0 then .error (.statisticsError "no median for empty data")
  else
    let s := List.insertionSort (fun a b : Int => a ≤ b) xs
    let n := xs.length
    if n % 2 = 1 then .ok ((s.getD (n / 2) 0 : Int) : ℚ)
    else .ok ((((s.getD (n / 2 - 1) 0 : Int) : ℚ) + ((s.getD (n / 2) 0 : Int) : ℚ)) / 2)

/-- The error behaviour of `statistics.stdev` (line 29): it raises the sample
variance's error on fewer than two data points.  Its value, the square root of
`pyVariance`, is irrational in general and is modelled separately by `pyStdev`. -/
def pyStdevCheck (xs : List Int) : Except PyError Unit :=
  if xs.length < 2 then .error (.statisticsError "variance requires at least two data points")
  else .ok ()

/-- `statistics.stdev` (line 29): square root of the sample variance. -/
noncomputable def pyStdev (xs : List Int) : Except PyError ℝ :=
  (pyVariance xs).map fun v => Real.sqrt (v : ℝ)

/-- The values `calculate_password_statistics` reports (lines 32-36 print
`len(scores)` and the four statistics; lines 41-43 print the buckets).  The
printed standard deviation is the square root of `variance_score` (`pyStdev`). -/
structure StatsReport where
  count : Nat
  mean_score : ℚ
  variance_score : ℚ
  median_score : ℚ
  score_counts : ScoreCounts
deriving DecidableEq

/-- `calculate_password_statistics` (lines 10-53): run the scoring loop, then
compute mean, variance, median and stdev in the source's order (lines 26-29); the
first `StatisticsError` aborts the function before anything is printed. -/
def calculate_password_statistics (score : String → Int) (lines : List String) :
    Except PyError StatsReport :=
  match scoreLoop score lines initCounts with
  | .error e => .error e
  | .ok (scores, score_counts) =>
    match pyMean scores with
    | .error e => .error e
    | .ok mean_score =>
      match pyVariance scores with
      | .error e => .error e
      | .ok variance_score =>
        match pyMedian scores with
        | .error e => .error e
        | .ok median_score =>
          match pyStdevCheck scores with
          | .error e => .error e
          | .ok _ =>
            .ok { count := scores.length
                  mean_score := mean_score
                  variance_score := variance_score
                  median_score := median_score
                  score_counts := score_counts }

/-- The qualitative labels of line 42: `["Very Weak", "Weak", "Fair", "Good",
"Strong"]`. -/
def strengthLabels : List String := ["Very Weak", "Weak", "Fair", "Good", "Strong"]

/-- Python list indexing `l[i]` as used on line 42: a negative index counts from
the end of the list; an index out of range on either side raises `IndexError`,
modelled by `none`. -/
def pyListGet (l : List String) (i : Int) : Option String :=
  if 0 ≤ i then l.get? i.toNat
  else if 0 ≤ (l.length : Int) + i then l.get? ((l.length : Int) + i).toNat
  else none

/-- Errors of the `__main__` block: the `ValueError` of line 100 and any
exception escaping the per-corpus calls. -/
inductive MainError where
  | valueError (msg : String)
  | pyError (e : PyError)
deriving DecidableEq

/-- The three per-corpus results computed in the loop of lines 109-117. -/
structure CorpusResult where
  stats : StatsReport
  uniqueness : UniquenessResult
  characteristics : CharClassCounts
deriving DecidableEq

/-- One iteration of the loop of lines 109-117: each of the three functions
re-reads the file (modelled by the pure file system `fs`). -/
def processCorpus (fs : String → List String) (score : String → Int)
    (input_file : String) : Except MainError CorpusResult :=
  match calculate_password_statistics score (fs input_file) with
  | .error e => .error (.pyError e)
  | .ok stats =>
    .ok { stats := stats
          uniqueness := calculate_unique_passwords (fs input_file)
          characteristics := calculate_password_characteristics (fs input_file) }

/-- The `__main__` block (lines 92-120): the length check of lines 99-100 runs
before any file is opened; only then is each `(input_file, label)` pair
processed.  `fs` maps a path to the lines of the file at that path, so a result
that does not depend on `fs` was produced without reading any file. -/
def runMain (fs : String → List String) (score : String → Int)
    (input_files labels : List String) : Except MainError (List CorpusResult) :=
  if input_files.length ≠ labels.length then
    .error (.valueError "The number of input files and labels must be the same.")
  else
    (input_files.zip labels).mapM fun fl => processCorpus fs score fl.1

/-- The stripped lines that survive the `if password:` test of line 21: the
sequence actually scored. -/
def nonEmptyStripped (lines : List String) : List String :=
  (lines.map pyStrip).filter fun s => s ≠ ""

/-- The score sequence the loop of lines 17-24 collects. -/
def scoresOf (score : String → Int) (lines : List String) : List Int :=
  (nonEmptyStripped lines).map score

/-- The score-frequency table as counting: bucket `i` holds the number of scored
passwords whose score is `i` (0 when none). -/
def bucketsOf (score : String → Int) (lines : List String) : ScoreCounts :=
  ⟨(scoresOf score lines).count 0, (scoresOf score lines).count 1,
   (scoresOf score lines).count 2, (scoresOf score lines).count 3,
   (scoresOf score lines).count 4⟩

/-- Pointwise sum of two bucket tables. -/
def addCounts (a b : ScoreCounts) : ScoreCounts :=
  ⟨a.s0 + b.s0, a.s1 + b.s1, a.s2 + b.s2, a.s3 + b.s3, a.s4 + b.s4⟩

/-- The scorer stub of the spec's concrete scenario: `abc123 ↦ 0`,
`Password1! ↦ 3`. -/
def stubScorer (p : String) : Int := if p = "Password1!" then 3 else 0

/-- The corpus of the spec's concrete scenario. -/
def scenarioLines : List String := ["abc123", "abc123", "Password1!"]

instance {ε α : Type} [DecidableEq ε] [DecidableEq α] : DecidableEq (Except ε α) :=
  fun a b =>
    match a, b with
    | .ok x, .ok y => decidable_of_iff (x = y) (by simp)
    | .error e, .error f => decidable_of_iff (e = f) (by simp)
    | .ok _, .error _ => .isFalse (by simp)
    | .error _, .ok _ => .isFalse (by simp)

theorem addCounts_initCounts (b : ScoreCounts) : addCounts initCounts b = b := by
  cases b
  simp [addCounts, initCounts]

theorem nonEmptyStripped_cons (p : String) (ps : List String) :
    nonEmptyStripped (p :: ps) =
      if pyStrip p = "" then nonEmptyStripped ps else pyStrip p :: nonEmptyStripped ps := by
  by_cases h : pyStrip p = "" <;> simp [nonEmptyStripped, List.filter_cons, h]

/-- Under the scorer's contract (scores in 0..4) the loop of lines 17-24 succeeds,
collects exactly the scores of the non-empty stripped lines in order, and adds to
the incoming table the number of occurrences of each score class. -/
theorem scoreLoop_eq_ok (score : String → Int) (hr : ∀ q, 0 ≤ score q ∧ score q ≤ 4)
    (lines : List String) : ∀ c : ScoreCounts,
    scoreLoop score lines c = .ok (scoresOf score lines, addCounts c (bucketsOf score lines)) := by
  induction lines with
  | nil =>
    intro c
    simp [scoreLoop, scoresOf, nonEmptyStripped, bucketsOf, addCounts]
  | cons p ps ih =>
    intro c
    by_cases h : pyStrip p = ""
    · simpa [scoreLoop, h, scoresOf, nonEmptyStripped_cons, bucketsOf] using ih c
    · have hb := hr (pyStrip p)
      have hsc : scoresOf score (p :: ps) = score (pyStrip p) :: scoresOf score ps := by
        simp [scoresOf, nonEmptyStripped_cons, h]
      have hcases : score (pyStrip p) = 0 ∨ score (pyStrip p) = 1 ∨ score (pyStrip p) = 2 ∨
          score (pyStrip p) = 3 ∨ score (pyStrip p) = 4 := by omega
      rcases hcases with hs | hs | hs | hs | hs <;>
        simp [scoreLoop, h, hs, incrScore, ih, Except.map, bucketsOf, hsc, List.count_cons,
          addCounts] <;>
        omega

/-- A list of scores drawn from 0..4 is exhausted by the five buckets. -/
theorem count_sum_of_range (ss : List Int) (h : ∀ x ∈ ss, 0 ≤ x ∧ x ≤ 4) :
    ss.count 0 + ss.count 1 + ss.count 2 + ss.count 3 + ss.count 4 = ss.length := by
  induction ss with
  | nil => simp
  | cons x xs ih =>
    have hx := h x (by simp)
    have hxs := ih fun y hy => h y (by simp [hy])
    have hcases : x = 0 ∨ x = 1 ∨ x = 2 ∨ x = 3 ∨ x = 4 := by omega
    rcases hcases with hs | hs | hs | hs | hs <;> simp [hs, List.count_cons] <;> omega

theorem pyMean_perm {xs ys : List Int} (h : xs.Perm ys) : pyMean xs = pyMean ys := by
  simp [pyMean, h.length_eq, h.sum_eq]

theorem pyVariance_perm {xs ys : List Int} (h : xs.Perm ys) : pyVariance xs = pyVariance ys := by
  have hmap : (xs.map fun x : Int => ((x : ℚ) - (ys.sum : ℚ) / (ys.length : ℚ)) ^ 2).sum =
      (ys.map fun x : Int => ((x : ℚ) - (ys.sum : ℚ) / (ys.length : ℚ)) ^ 2).sum :=
    (h.map _).sum_eq
  simp only [pyVariance, h.length_eq, h.sum_eq, hmap]

theorem pyMedian_perm {xs ys : List Int} (h : xs.Perm ys) : pyMedian xs = pyMedian ys := by
  have hsort : List.insertionSort (fun a b : Int => a ≤ b) xs =
      List.insertionSort (fun a b : Int => a ≤ b) ys := by
    refine List.eq_of_perm_of_sorted
      ((List.perm_insertionSort _ xs).trans (h.trans (List.perm_insertionSort _ ys).symm))
      (List.sorted_insertionSort _ xs) (List.sorted_insertionSort _ ys)
  simp [pyMedian, h.length_eq, hsort]

theorem pyStdevCheck_perm {xs ys : List Int} (h : xs.Perm ys) :
    pyStdevCheck xs = pyStdevCheck ys := by
  simp [pyStdevCheck, h.length_eq]

theorem pyStdev_perm {xs ys : List Int} (h : xs.Perm ys) : pyStdev xs = pyStdev ys := by
  simp [pyStdev, pyVariance_perm h]

/-- Appending a line that strips to the empty string does not change the scoring
loop: the `if password:` test of line 21 skips it. -/
theorem scoreLoop_append_empty (score : String → Int) (e : String) (he : pyStrip e = "")
    (lines : List String) : ∀ c : ScoreCounts,
    scoreLoop score (lines ++ [e]) c = scoreLoop score lines c := by
  induction lines with
  | nil => intro c; simp [scoreLoop, he]
  | cons p ps ih =>
    intro c
    by_cases h : pyStrip p = ""
    · simp [scoreLoop, h, ih]
    · simp only [List.cons_append, scoreLoop, h, if_neg]
      cases hi : incrScore c (score (pyStrip p)) <;> simp [hi, ih]

theorem map_pyStrip_filter (lines : List String) :
    ((lines.filter fun l => pyStrip l ≠ "").map pyStrip) = nonEmptyStripped lines := by
  induction lines with
  | nil => simp [nonEmptyStripped]
  | cons p ps ih =>
    by_cases h : pyStrip p = "" <;>
      simp [List.filter_cons, h, nonEmptyStripped_cons] <;> simpa using ih

theorem countP_filter_ne (pred : String → Bool) (hpred : pred "" = false)
    (l : List String) : ((l.filter fun s => s ≠ "").countP pred) = l.countP pred := by
  induction l with
  | nil => simp
  | cons x xs ih =>
    by_cases h : x = ""
    · subst h
      simp [List.filter_cons, List.countP_cons, hpred]
      simpa using ih
    · simp [List.filter_cons, h, List.countP_cons]
      simpa using ih

theorem toFinset_stripped_insert (lines : List String) (h : "" ∈ lines.map pyStrip) :
    (lines.map pyStrip).toFinset = insert "" (nonEmptyStripped lines).toFinset := by
  ext x
  by_cases hxe : x = "" <;> simp [hxe, h, nonEmptyStripped, List.mem_filter]

theorem not_mem_nonEmptyStripped_toFinset (lines : List String) :
    "" ∉ (nonEmptyStripped lines).toFinset := by
  simp [nonEmptyStripped, List.mem_filter]

/-- C1 counterexample: adding a line that is empty after stripping to the file
`["abc"]` raises `unique_count` from 1 to 2, because `calculate_unique_passwords`
keeps empty stripped lines in the list it deduplicates (lines 62-64). -/
theorem C1_counterexample :
    (calculate_unique_passwords ["abc"]).unique_count = 1 ∧
    (calculate_unique_passwords ["abc", ""]).unique_count = 2 := by
  constructor <;> rfl

/-- C1 (amended): lines that are empty after stripping are excluded from the
scoring pass — adding one changes neither the score-frequency table nor any
statistic — and they leave the character-class counts unchanged; but they are
NOT excluded from the uniqueness analysis, which deduplicates the full stripped
line list (see C10). -/
theorem C1_empty_excluded_from_scoring (score : String → Int) (lines : List String)
    (e : String) (he : pyStrip e = "") :
    calculate_password_statistics score (lines ++ [e]) =
      calculate_password_statistics score lines ∧
    calculate_password_characteristics (lines ++ [e]) =
      calculate_password_characteristics lines := by
  constructor
  · simp only [calculate_password_statistics,
      scoreLoop_append_empty score e he lines initCounts]
  · have hd : hasDigit "" = false := rfl
    have hu : hasUpper "" = false := rfl
    have hs : hasSpecial "" = false := rfl
    simp [calculate_password_characteristics, he, List.countP_append, List.countP_cons,
      hd, hu, hs]

theorem C1_witness :
    calculate_password_statistics (fun _ => 0) (["abc"] ++ [" "]) =
      calculate_password_statistics (fun _ => 0) ["abc"] ∧
    calculate_password_characteristics (["abc"] ++ [" "]) =
      calculate_password_characteristics ["abc"] :=
  C1_empty_excluded_from_scoring (fun _ => 0) ["abc"] " " (by rfl)

/-- C2 counterexample: for a corpus with exactly one scorable password the
function aborts at the variance computation (line 27) with a
`statistics.StatisticsError`, so no report is produced — count and mean are
never printed, contrary to the claim that they are still reported.  Both the
zero-case and the one-case raise the same exception class, differing only in
message. -/
theorem C2_counterexample :
    calculate_password_statistics (fun _ => 2) ["a"] =
      .error (.statisticsError "variance requires at least two data points") := by
  rfl

/-- C2 (amended): with a scorer obeying the documented range, a corpus with zero
scorable passwords fails at `statistics.mean` (line 26) and a corpus with exactly
one fails at `statistics.variance` (line 27); the two failures carry the same
exception class and are distinguishable only by message.  In the exactly-one
case the mean computation itself succeeds and equals the single score, but the
function returns no report at all. -/
theorem C2_error_conditions (score : String → Int) (lines : List String)
    (hr : ∀ q, 0 ≤ score q ∧ score q ≤ 4) :
    (nonEmptyStripped lines = [] →
      calculate_password_statistics score lines =
        .error (.statisticsError "mean requires at least one data point")) ∧
    ((scoresOf score lines).length = 1 →
      calculate_password_statistics score lines =
        .error (.statisticsError "variance requires at least two data points") ∧
      pyMean (scoresOf score lines) = .ok (((scoresOf score lines).getD 0 0 : Int) : ℚ)) := by
  have hloop := scoreLoop_eq_ok score hr lines initCounts
  constructor
  · intro h
    have hsc : scoresOf score lines = [] := by simp [scoresOf, h]
    simp [calculate_password_statistics, hloop, hsc, pyMean]
  · intro h1
    obtain ⟨s, hs⟩ := List.length_eq_one.mp h1
    have hm : pyMean [s] = .ok ((s : Int) : ℚ) := by simp [pyMean]
    refine ⟨?_, by rw [hs]; simpa using hm⟩
    simp [calculate_password_statistics, hloop, hs, hm, pyVariance]

theorem C2_witness :
    (nonEmptyStripped ["a"] = [] →
      calculate_password_statistics (fun _ => 2) ["a"] =
        .error (.statisticsError "mean requires at least one data point")) ∧
    ((scoresOf (fun _ => 2) ["a"]).length = 1 →
      calculate_password_statistics (fun _ => 2) ["a"] =
        .error (.statisticsError "variance requires at least two data points") ∧
      pyMean (scoresOf (fun _ => 2) ["a"]) =
        .ok (((scoresOf (fun _ => 2) ["a"]).getD 0 0 : Int) : ℚ)) :=
  C2_error_conditions (fun _ => 2) ["a"] (fun _ => ⟨by norm_num, by norm_num⟩)

/-- C3 counterexample: on the scenario corpus the code's `digit_count` is 3, not
the claimed 2 — both copies of `abc123` and also `Password1!` contain a digit,
and line 79 counts every line, duplicates included. -/
theorem C3_counterexample :
    (calculate_password_characteristics ["abc123", "abc123", "Password1!"]).digit_count = 3 ∧
    ¬ (calculate_password_characteristics ["abc123", "abc123", "Password1!"]).digit_count = 2 := by
  constructor <;> decide

/-- C3 (amended): for the scenario corpus with the stubbed scorer the program
produces unique_count 2, duplicate_count 1, digit_count 3 (not 2), upper_count 1,
special_count 1, buckets 0 ↦ 2 and 3 ↦ 1 (others 0), count 3, mean 1, sample
variance 3 and median 0. -/
theorem C3_scenario :
    calculate_unique_passwords scenarioLines = ⟨2, 1⟩ ∧
    calculate_password_characteristics scenarioLines = ⟨3, 1, 1⟩ ∧
    calculate_password_statistics stubScorer scenarioLines =
      .ok ⟨3, 1, 3, 0, ⟨2, 0, 0, 1, 0⟩⟩ := by
  refine ⟨by decide, by decide, ?_⟩
  have hloop : scoreLoop stubScorer scenarioLines initCounts =
      .ok ([0, 0, 3], ⟨2, 0, 0, 1, 0⟩) := by rfl
  have hm : pyMean [0, 0, 3] = .ok 1 := by norm_num [pyMean]
  have hv : pyVariance [0, 0, 3] = .ok 3 := by norm_num [pyVariance]
  have hmed : pyMedian [0, 0, 3] = .ok 0 := by
    norm_num [pyMedian, List.insertionSort, List.orderedInsert]
  simp [calculate_password_statistics, hloop, hm, hv, hmed, pyStdevCheck]

/-- C4: under the scorer's contract, the frequency table built by lines 17-24 is
exactly the count of each score class among the scored (non-empty stripped)
passwords — all five buckets present, defaulting to 0 — and the five bucket
counts sum to the number of scored passwords. -/
theorem C4_bucket_sum (score : String → Int) (lines : List String)
    (hr : ∀ q, 0 ≤ score q ∧ score q ≤ 4) :
    scoreLoop score lines initCounts = .ok (scoresOf score lines, bucketsOf score lines) ∧
    (bucketsOf score lines).s0 + (bucketsOf score lines).s1 + (bucketsOf score lines).s2 +
      (bucketsOf score lines).s3 + (bucketsOf score lines).s4 =
      (nonEmptyStripped lines).length := by
  constructor
  · simpa [addCounts_initCounts] using scoreLoop_eq_ok score hr lines initCounts
  · have hmem : ∀ x ∈ scoresOf score lines, 0 ≤ x ∧ x ≤ 4 := by
      intro x hx
      obtain ⟨q, hq, rfl⟩ := List.mem_map.mp hx
      exact hr q
    have hsum := count_sum_of_range (scoresOf score lines) hmem
    simpa [bucketsOf, scoresOf] using hsum

theorem C4_witness :
    scoreLoop (fun _ => (2 : Int)) ["a"] initCounts =
      .ok (scoresOf (fun _ => 2) ["a"], bucketsOf (fun _ => 2) ["a"]) ∧
    (bucketsOf (fun _ => (2 : Int)) ["a"]).s0 + (bucketsOf (fun _ => 2) ["a"]).s1 +
      (bucketsOf (fun _ => 2) ["a"]).s2 + (bucketsOf (fun _ => 2) ["a"]).s3 +
      (bucketsOf (fun _ => 2) ["a"]).s4 = (nonEmptyStripped ["a"]).length :=
  C4_bucket_sum (fun _ => 2) ["a"] (fun _ => ⟨by norm_num, by norm_num⟩)

/-- C5: the uniqueness analyzer (lines 62-65) returns the number of distinct
stripped lines as `unique_count`, the total line count minus `unique_count` as
`duplicate_count`, and the two always sum back to the total line count. -/
theorem C5_uniqueness_partition (lines : List String) :
    (calculate_unique_passwords lines).unique_count = ((lines.map pyStrip).toFinset).card ∧
    (calculate_unique_passwords lines).duplicate_count =
      lines.length - (calculate_unique_passwords lines).unique_count ∧
    (calculate_unique_passwords lines).unique_count +
      (calculate_unique_passwords lines).duplicate_count = lines.length := by
  have hle : ((lines.map pyStrip).toFinset).card ≤ (lines.map pyStrip).length :=
    List.toFinset_card_le _
  rw [List.length_map] at hle
  refine ⟨rfl, ?_, ?_⟩
  · simp [calculate_unique_passwords, List.length_map]
  · simp only [calculate_unique_passwords, List.length_map]
    omega

/-- C6: when the number of input files differs from the number of labels, the
`ValueError` of line 100 is raised.  The result is the same for every file
system `fs`, so it is produced before any file is opened or processed. -/
theorem C6_config_error_before_any_io (fs : String → List String) (score : String → Int)
    (input_files labels : List String) (h : input_files.length ≠ labels.length) :
    runMain fs score input_files labels =
      .error (.valueError "The number of input files and labels must be the same.") := by
  simp [runMain, h]

theorem C6_witness :
    runMain (fun _ => []) (fun _ => 0) ["pw1.txt", "pw2.txt"] ["label1"] =
      .error (.valueError "The number of input files and labels must be the same.") :=
  C6_config_error_before_any_io (fun _ => []) (fun _ => 0) ["pw1.txt", "pw2.txt"] ["label1"]
    (by decide)

/-- C7: for a corpus with at least one scorable password and a scorer within the
documented closed range 0..4, the mean computed on line 26 exists and lies
within [0, 4]. -/
theorem C7_mean_in_range (score : String → Int) (lines : List String)
    (hr : ∀ q, 0 ≤ score q ∧ score q ≤ 4) (hne : nonEmptyStripped lines ≠ []) :
    ∃ m : ℚ, pyMean (scoresOf score lines) = .ok m ∧ 0 ≤ m ∧ m ≤ 4 := by
  have hss : scoresOf score lines ≠ [] := by simpa [scoresOf] using hne
  have hlen : 0 < (scoresOf score lines).length := List.length_pos.mpr hss
  have hmem : ∀ x ∈ scoresOf score lines, 0 ≤ x ∧ x ≤ 4 := by
    intro x hx
    obtain ⟨q, hq, rfl⟩ := List.mem_map.mp hx
    exact hr q
  have hlenQ : (0 : ℚ) < ((scoresOf score lines).length : ℚ) := by exact_mod_cast hlen
  refine ⟨((scoresOf score lines).sum : ℚ) / ((scoresOf score lines).length : ℚ),
    ?_, ?_, ?_⟩
  · rw [pyMean, if_neg (by omega)]
  · apply div_nonneg _ hlenQ.le
    exact_mod_cast List.sum_nonneg fun x hx => (hmem x hx).1
  · rw [div_le_iff₀ hlenQ]
    have hb : (scoresOf score lines).sum ≤ (scoresOf score lines).length • (4 : Int) :=
      List.sum_le_card_nsmul _ 4 fun x hx => (hmem x hx).2
    have h2 : (scoresOf score lines).sum ≤ 4 * ((scoresOf score lines).length : Int) := by
      rw [nsmul_eq_mul] at hb
      linarith
    exact_mod_cast h2

theorem C7_witness :
    ∃ m : ℚ, pyMean (scoresOf (fun _ => (3 : Int)) ["a"]) = .ok m ∧ 0 ≤ m ∧ m ≤ 4 :=
  C7_mean_in_range (fun _ => 3) ["a"] (fun _ => ⟨by norm_num, by norm_num⟩) (by decide)

theorem isSome_listGet? {α : Type} (l : List α) (n : Nat) :
    (l.get? n).isSome ↔ n < l.length := by
  constructor
  · intro hs
    by_contra hlt
    rw [List.get?_eq_none.mpr (by omega)] at hs
    simp at hs
  · intro hlt
    cases h : l.get? n
    · rw [List.get?_eq_none] at h
      omega
    · simp

theorem length_filter_lt_of_mem {α : Type} (p : α → Bool) (l : List α) (a : α)
    (ha : a ∈ l) (hpa : p a = false) : (l.filter p).length < l.length := by
  induction l with
  | nil => cases ha
  | cons x xs ih =>
    rcases List.mem_cons.mp ha with rfl | hmem
    · have := List.length_filter_le p xs
      simp [List.filter_cons, hpa]
      omega
    · have hlt := ih hmem
      by_cases hx : p x <;> simp [List.filter_cons, hx] <;> omega

/-- C8: every computed output is invariant under permuting the file's lines:
the whole statistics report (count, mean, sample variance, median and the
five-bucket table), the standard deviation, the uniqueness counts and the three
character-class counts. -/
theorem C8_permutation_invariance (score : String → Int) {l1 l2 : List String}
    (hperm : l1.Perm l2) (hr : ∀ q, 0 ≤ score q ∧ score q ≤ 4) :
    calculate_password_statistics score l1 = calculate_password_statistics score l2 ∧
    pyStdev (scoresOf score l1) = pyStdev (scoresOf score l2) ∧
    calculate_unique_passwords l1 = calculate_unique_passwords l2 ∧
    calculate_password_characteristics l1 = calculate_password_characteristics l2 := by
  have hstrip : (l1.map pyStrip).Perm (l2.map pyStrip) := hperm.map pyStrip
  have hne : (nonEmptyStripped l1).Perm (nonEmptyStripped l2) := hstrip.filter _
  have hsp : (scoresOf score l1).Perm (scoresOf score l2) := hne.map score
  have hb : bucketsOf score l1 = bucketsOf score l2 := by
    simp [bucketsOf, hsp.count_eq]
  refine ⟨?_, pyStdev_perm hsp, ?_, ?_⟩
  · have e1 := scoreLoop_eq_ok score hr l1 initCounts
    have e2 := scoreLoop_eq_ok score hr l2 initCounts
    simp only [calculate_password_statistics, e1, e2, addCounts_initCounts, hb,
      pyMean_perm hsp, pyVariance_perm hsp, pyMedian_perm hsp, pyStdevCheck_perm hsp,
      hsp.length_eq]
  · simp [calculate_unique_passwords, List.toFinset_eq_of_perm _ _ hstrip,
      hstrip.length_eq]
  · simp [calculate_password_characteristics, hstrip.countP_eq]

theorem C8_witness :
    calculate_password_statistics (fun _ => (2 : Int)) ["a", "b"] =
      calculate_password_statistics (fun _ => 2) ["b", "a"] ∧
    pyStdev (scoresOf (fun _ => (2 : Int)) ["a", "b"]) =
      pyStdev (scoresOf (fun _ => 2) ["b", "a"]) ∧
    calculate_unique_passwords ["a", "b"] = calculate_unique_passwords ["b", "a"] ∧
    calculate_password_characteristics ["a", "b"] =
      calculate_password_characteristics ["b", "a"] :=
  C8_permutation_invariance (fun _ => 2) (List.Perm.swap "b" "a" [])
    (fun _ => ⟨by norm_num, by norm_num⟩)

/-- C9 counterexample: the claim says any score outside 0..4 makes the label
lookup fail, but Python list indexing accepts negative indices: at score −1 the
lookup silently yields "Strong" instead of raising. -/
theorem C9_counterexample :
    pyListGet strengthLabels (-1) = some "Strong" ∧
    pyListGet strengthLabels (-1) ≠ none := by
  constructor
  · rfl
  · intro h
    rw [show pyListGet strengthLabels (-1) = some "Strong" from rfl] at h
    cases h

/-- C9 (amended): for scores in 0..4 the bucket increment of line 24 and the
label lookup of line 42 both succeed (with the documented labels); outside that
range the bucket increment always raises `KeyError`, while the positional label
lookup raises `IndexError` only for scores ≥ 5 or < −5 — for scores in −5..−1 it
silently returns a label by negative indexing.  (In the program the lookup is
only applied to the table's fixed keys 0-4, so it never sees an out-of-range
score.) -/
theorem C9_lookup_domains :
    (∀ (c : ScoreCounts) (s : Int), (incrScore c s).isSome ↔ (0 ≤ s ∧ s ≤ 4)) ∧
    (∀ s : Int, (pyListGet strengthLabels s).isSome ↔ (-5 ≤ s ∧ s ≤ 4)) ∧
    pyListGet strengthLabels 0 = some "Very Weak" ∧
    pyListGet strengthLabels 1 = some "Weak" ∧
    pyListGet strengthLabels 2 = some "Fair" ∧
    pyListGet strengthLabels 3 = some "Good" ∧
    pyListGet strengthLabels 4 = some "Strong" := by
  refine ⟨?_, ?_, rfl, rfl, rfl, rfl, rfl⟩
  · intro c s
    unfold incrScore
    split_ifs with h0 h1 h2 h3 h4 <;> simp <;> omega
  · intro s
    unfold pyListGet
    split_ifs with h0 h1
    · rw [isSome_listGet?]
      simp only [strengthLabels, List.length_cons, List.length_nil]
      omega
    · rw [isSome_listGet?]
      simp only [strengthLabels, List.length_cons, List.length_nil] at h1 ⊢
      omega
    · simp only [Option.isSome_none, Bool.false_eq_true, false_iff]
      simp only [strengthLabels, List.length_cons, List.length_nil] at h1
      omega

/-- C10: empty-after-strip lines all collapse to one distinct value in the
uniqueness analysis — relative to the same file with them removed, k > 0 of them
raise `unique_count` by exactly 1 and `duplicate_count` by exactly k−1 — while
the character-class counts are unchanged, the empty string satisfying none of
the three predicates. -/
theorem C10_empty_collapse (lines : List String) (h : "" ∈ lines.map pyStrip) :
    (calculate_unique_passwords lines).unique_count =
      (calculate_unique_passwords (lines.filter fun l => pyStrip l ≠ "")).unique_count + 1 ∧
    (calculate_unique_passwords lines).duplicate_count =
      (calculate_unique_passwords (lines.filter fun l => pyStrip l ≠ "")).duplicate_count +
        (lines.length - (lines.filter fun l => pyStrip l ≠ "").length - 1) ∧
    calculate_password_characteristics lines =
      calculate_password_characteristics (lines.filter fun l => pyStrip l ≠ "") := by
  have hkeep : ((lines.filter fun l => pyStrip l ≠ "").map pyStrip) = nonEmptyStripped lines :=
    map_pyStrip_filter lines
  have hins : (lines.map pyStrip).toFinset = insert "" (nonEmptyStripped lines).toFinset :=
    toFinset_stripped_insert lines h
  have hcard : (lines.map pyStrip).toFinset.card =
      (nonEmptyStripped lines).toFinset.card + 1 := by
    rw [hins, Finset.card_insert_of_not_mem (not_mem_nonEmptyStripped_toFinset lines)]
  have hlt : (lines.filter fun l => pyStrip l ≠ "").length < lines.length := by
    obtain ⟨e, he, hee⟩ := List.mem_map.mp h
    exact length_filter_lt_of_mem _ lines e he (by simp [hee])
  have hcardle : (nonEmptyStripped lines).toFinset.card ≤ (nonEmptyStripped lines).length :=
    List.toFinset_card_le _
  have hklen : (nonEmptyStripped lines).length =
      (lines.filter fun l => pyStrip l ≠ "").length := by
    rw [← hkeep, List.length_map]
  have hcp : ∀ pred : String → Bool, pred "" = false →
      (nonEmptyStripped lines).countP pred = (lines.map pyStrip).countP pred := by
    intro pred hpred
    have hfil := countP_filter_ne pred hpred (lines.map pyStrip)
    simpa [nonEmptyStripped] using hfil
  refine ⟨?_, ?_, ?_⟩
  · show (lines.map pyStrip).toFinset.card =
      ((lines.filter fun l => pyStrip l ≠ "").map pyStrip).toFinset.card + 1
    rw [hkeep, hcard]
  · show (lines.map pyStrip).length - (lines.map pyStrip).toFinset.card =
      (((lines.filter fun l => pyStrip l ≠ "").map pyStrip).length -
        ((lines.filter fun l => pyStrip l ≠ "").map pyStrip).toFinset.card) +
        (lines.length - (lines.filter fun l => pyStrip l ≠ "").length - 1)
    rw [hkeep, hcard, List.length_map]
    omega
  · have hd : hasDigit "" = false := rfl
    have hu : hasUpper "" = false := rfl
    have hsp2 : hasSpecial "" = false := rfl
    show (⟨(lines.map pyStrip).countP hasDigit, (lines.map pyStrip).countP hasUpper,
        (lines.map pyStrip).countP hasSpecial⟩ : CharClassCounts) =
      ⟨((lines.filter fun l => pyStrip l ≠ "").map pyStrip).countP hasDigit,
       ((lines.filter fun l => pyStrip l ≠ "").map pyStrip).countP hasUpper,
       ((lines.filter fun l => pyStrip l ≠ "").map pyStrip).countP hasSpecial⟩
    rw [hkeep, hcp hasDigit hd, hcp hasUpper hu, hcp hasSpecial hsp2]

theorem C10_witness :
    (calculate_unique_passwords ["a", " "]).unique_count =
      (calculate_unique_passwords (["a", " "].filter fun l => pyStrip l ≠ "")).unique_count
        + 1 ∧
    (calculate_unique_passwords ["a", " "]).duplicate_count =
      (calculate_unique_passwords (["a", " "].filter fun l => pyStrip l ≠ "")).duplicate_count
        + (["a", " "].length - (["a", " "].filter fun l => pyStrip l ≠ "").length - 1) ∧
    calculate_password_characteristics ["a", " "] =
      calculate_password_characteristics (["a", " "].filter fun l => pyStrip l ≠ "") :=
  C10_empty_collapse ["a", " "] (by decide)
